import Mathlib

/-!
Verification of the veles worker-side protocol engine (`src/veles/client.py`)
against its natural-language specification.

The embedding models the protocol as pure Lean functions over explicit state
records.  Byte payloads are modelled as `String` (Python byte-string truthiness
becomes emptiness), exceptions as `Except PyError`, and every externally
observable side effect (sends, logs, dispatches, process stop) as an element
of an `Output` list.
-/

namespace Veles

/-- Python-level exceptions that can escape the modelled operations. -/
inductive PyError where
  /-- `assert` failure (`update_result_received`). -/
  | assertionError
  /-- `fysom.FysomError`: event fired from a state not listed for it. -/
  | fysomError (event : String) (state : String)
  /-- Attribute access on `None` (e.g. `zmq_connection` not yet created). -/
  | attributeError (msg : String)
deriving DecidableEq, Repr

/-- Externally observable effects of the modelled operations, in program order. -/
inductive Output where
  | logInfo (msg : String)
  | logDebug (msg : String)
  | logWarning (msg : String)
  | logError (msg : String)
  /-- `ZmqConnection.send` of `(id, command, message)`; `viaShmem` records
  whether the shared-memory buffer was used for the transfer. -/
  | zmqSend (id command message : String) (viaShmem : Bool)
  /-- `send_id`: handshake line carrying the existing identity. -/
  | sendIdLine (id : Option String)
  /-- `request_id`: handshake line carrying the initial data. -/
  | requestIdLine
  /-- `self.factory.host.launcher.stop()`. -/
  | launcherStop
  /-- `_set_deferred(workflow.do_job, job, update, job_finished)`. -/
  | dispatchJob (job : String) (update : Option String)
  /-- `_set_deferred(workflow.apply_initial_data_from_master, data)`. -/
  | dispatchInitialData (data : String)
  /-- `self._current_deferred.cancel()`. -/
  | cancelDeferred
  /-- `errback(Failure())`: the process-level fatal error reporter. -/
  | errback (msg : String)
  /-- `self.transport.loseConnection()`. -/
  | loseConnection
  /-- `reactor.callLater(RECONNECTION_INTERVAL, connector.connect)`. -/
  | scheduleReconnect
deriving DecidableEq, Repr

/-! ## Session state machine (`VelesProtocol.FSM_DESCRIPTION`) -/

/-- One entry of the `events` list of `FSM_DESCRIPTION`.  A source list
containing `"*"` is the fysom wildcard (any state). -/
structure FsmEvent where
  name : String
  src : List String
  dst : String
deriving DecidableEq, Repr

/-- `FSM_DESCRIPTION['initial']`. -/
def fsmInitial : String := "INIT"

/-- `FSM_DESCRIPTION['events']`, transcribed from `client.py`. -/
def fsmEvents : List FsmEvent :=
  [ ⟨"disconnect", ["*"], "ERROR"⟩,
    ⟨"reconnect", ["*"], "INIT"⟩,
    ⟨"request_id", ["INIT", "WAIT"], "WAIT"⟩,
    ⟨"send_id", ["INIT"], "WAIT"⟩,
    ⟨"request_job", ["WAIT", "POSTPONED"], "GETTING_JOB"⟩,
    ⟨"obtain_job", ["GETTING_JOB"], "BUSY"⟩,
    ⟨"refuse_job", ["GETTING_JOB"], "END"⟩,
    ⟨"postpone_job", ["GETTING_JOB"], "POSTPONED"⟩,
    ⟨"complete_job", ["BUSY"], "WAIT"⟩ ]

/-- The protocol states named by the specification (§4.1). -/
def fsmStates : List String :=
  ["INIT", "WAIT", "GETTING_JOB", "BUSY", "POSTPONED", "END", "ERROR"]

/-- The event names of the state machine. -/
def fsmEventNames : List String :=
  ["disconnect", "reconnect", "request_id", "send_id", "request_job",
   "obtain_job", "refuse_job", "postpone_job", "complete_job"]

/-- Modelled from the spec: the fysom interpreter (`veles/external/fysom.py`,
not under `src/`).  Firing event `e` in state `cur` consults the event table:
if `e` is listed with `cur` (or the `"*"` wildcard) among its sources, the
machine moves to the listed destination; otherwise the firing is rejected as a
fatal protocol error, modelled as `none` (fysom raises `FysomError`). -/
def fysomFire (events : List FsmEvent) (cur e : String) : Option String :=
  match events.find? (fun ev => ev.name == e &&
      (ev.src.contains "*" || ev.src.contains cur)) with
  | some ev => some ev.dst
  | none => none

/-- Fold one event into an optional current state: once a firing has been
rejected, the whole run is rejected. -/
def stepEvents (cur : Option String) (e : String) : Option String :=
  cur.bind (fun s => fysomFire fsmEvents s e)

/-- Run a sequence of fired events from the initial state `INIT`. -/
def runEvents (seq : List String) : Option String :=
  seq.foldl stepEvents (some fsmInitial)

/-- The §4.1 transition table, written directly from the specification's words
(for comparison with `fysomFire` over the source's `fsmEvents`).  `none` means
the event is not listed for that source state. -/
def specTable (cur e : String) : Option String :=
  if e = "disconnect" then some "ERROR"
  else if e = "reconnect" then some "INIT"
  else if e = "request_id" then
    (if cur = "INIT" ∨ cur = "WAIT" then some "WAIT" else none)
  else if e = "send_id" then
    (if cur = "INIT" then some "WAIT" else none)
  else if e = "request_job" then
    (if cur = "WAIT" ∨ cur = "POSTPONED" then some "GETTING_JOB" else none)
  else if e = "obtain_job" then
    (if cur = "GETTING_JOB" then some "BUSY" else none)
  else if e = "refuse_job" then
    (if cur = "GETTING_JOB" then some "END" else none)
  else if e = "postpone_job" then
    (if cur = "GETTING_JOB" then some "POSTPONED" else none)
  else if e = "complete_job" then
    (if cur = "BUSY" then some "WAIT" else none)
  else none

/-! ## Data channel (`ZmqDealer`) -/

/-- Modelled from the spec: the `SharedIO` object of `veles/external/txzmq`
(not under `src/`): a named shared-memory region of fixed `capacity` with a
current write offset `pos` (`seek(0)` resets it). -/
structure SharedBuffer where
  name : String
  capacity : Nat
  pos : Nat
deriving DecidableEq, Repr

/-- State of a `ZmqDealer` data-channel connection. -/
structure ZmqDealerState where
  id : String
  is_ipc : Bool
  shmem : Option SharedBuffer
  pickles_compression : Option String
  /-- `_request_timings`: per-command (latency sum, count), as an
  association list in insertion order. -/
  request_timings : List (String × Nat × Nat)
  /-- `_receive_timing`: (latency sum, count). -/
  receive_timing : Nat × Nat
deriving DecidableEq, Repr

/-- `ZmqDealer.RESERVE_SHMEM_SIZE` headroom applied to the observed payload
size: embeds `int(pickles_size * (1.0 + 0.05))` with `1.05` taken as the exact
rational `21/20` (floored by `Nat` division). -/
def reserveShmemSize (pickles_size : Nat) : Nat :=
  pickles_size * 21 / 20

/-- `endpoint.address.startswith('ipc://')`, computed over the character
list (`String.startsWith` does not reduce in the kernel). -/
def isIpcEndpoint (address : String) : Bool :=
  address.data.take 6 == "ipc://".data

/-- `ZmqDealer.__init__`: fresh dealer for node id `nid` connecting to
`endpointAddress`. -/
def ZmqDealer.init (nid endpointAddress : String) : ZmqDealerState :=
  let ipc := isIpcEndpoint endpointAddress
  { id := nid
    is_ipc := ipc
    shmem := none
    pickles_compression := if ipc then none else some "snappy"
    request_timings := []
    receive_timing := (0, 0) }

/-- Record one request latency sample under `command`, as
`_request_timings[command] = (sum + delta, count + 1)` does. -/
def bumpTiming (t : List (String × Nat × Nat)) (command : String) (delta : Nat) :
    List (String × Nat × Nat) :=
  match t with
  | [] => [(command, delta, 1)]
  | (c, s, n) :: rest =>
    if c = command then (c, s + delta, n + 1) :: rest
    else (c, s, n) :: bumpTiming rest command delta

/-- The first step of `ZmqDealer.request`: `if not self.shmem is None and
command == 'update': self.shmem.seek(0)`. -/
def seekIfUpdate (d : ZmqDealerState) (command : String) : ZmqDealerState :=
  if d.shmem.isSome && command == "update"
    then { d with shmem := d.shmem.map (fun sh => { sh with pos := 0 }) } else d

/-- `ZmqDealer.request(command, message)`.  `delta` is the wall-clock latency
of the send (`time.time() - checkpt`).  The shared-memory transfer inside
`ZmqConnection.send` is modelled from the spec (txzmq is not under `src/`):
with an `io` buffer present the payload is written at the current offset and
`IOOverflow` is raised when it does not fit, in which case `request` drops the
buffer and returns (nothing sent, no timing recorded); the observed
`pickles_size` is the payload length. -/
def ZmqDealer.request (d0 : ZmqDealerState) (command : String) (message : String)
    (delta : Nat) : ZmqDealerState × List Output :=
  let d := seekIfUpdate d0 command
  match d.shmem with
  | some sh =>
    if sh.capacity < sh.pos + message.length then
      ({ d with shmem := none }, [])
    else
      ({ d with shmem := some { sh with pos := sh.pos + message.length },
                request_timings := bumpTiming d.request_timings command delta },
       [Output.zmqSend d.id command message true])
  | none =>
    let d2 := { d with request_timings := bumpTiming d.request_timings command delta }
    let fresh : SharedBuffer :=
      { name := "veles-update-" ++ d.id
        capacity := reserveShmemSize message.length
        pos := 0 }
    let d3 := if d.is_ipc && command == "update" then
        { d2 with shmem := some fresh }
      else d2
    (d3, [Output.zmqSend d.id command message false])

/-! ## Control channel and session (`VelesProtocol`, `VelesProtocolFactory`) -/

/-- Persistent state of `VelesProtocolFactory`: survives reconnections. -/
structure FactoryState where
  id : Option String
  /-- `factory.state.current`; `none` models `factory.state is None`. -/
  fsmState : Option String
  zmq_connection : Option ZmqDealerState
  disconnect_time : Option Nat
deriving DecidableEq, Repr

/-- State of a `VelesProtocol` instance (one per physical connection) together
with the factory state it shares. -/
structure ProtocolState where
  factory : FactoryState
  /-- `_last_update`: the pending Update, if any. -/
  last_update : Option String
  async : Bool
  death_probability : ℚ
  /-- Whether `_current_deferred` is set (not `None`). -/
  current_deferred : Bool
deriving DecidableEq, Repr

/-- `VelesProtocol.__init__`: a fresh protocol built by `buildProtocol` over
the (possibly reused) factory state; creates the Fysom machine at `INIT` when
the factory has none, and starts with no pending update and no deferred. -/
def VelesProtocol.init (f : FactoryState) (async : Bool) (death_probability : ℚ) :
    ProtocolState :=
  let f := if f.fsmState = none then { f with fsmState := some fsmInitial } else f
  { factory := f
    last_update := none
    async := async
    death_probability := death_probability
    current_deferred := false }

/-- Fire an FSM event on the protocol's shared state machine; `FysomError`
when the event is inappropriate in the current state.  (The
`onchangestate` callback only logs the transition.) -/
def fireEvent (p : ProtocolState) (e : String) : Except PyError ProtocolState :=
  match p.factory.fsmState with
  | none => .error (.attributeError "factory.state is None")
  | some cur =>
    match fysomFire fsmEvents cur e with
    | some dst => .ok { p with factory := { p.factory with fsmState := some dst } }
    | none => .error (.fysomError e cur)

/-- Perform `self.factory.zmq_connection.request(command, message)`;
`AttributeError` when no data channel exists. -/
def zmqRequestP (p : ProtocolState) (command message : String) (delta : Nat) :
    Except PyError (ProtocolState × List Output) :=
  match p.factory.zmq_connection with
  | none => .error (.attributeError "zmq_connection is None")
  | some d =>
    let (d2, outs) := ZmqDealer.request d command message delta
    .ok ({ p with factory := { p.factory with zmq_connection := some d2 } }, outs)

/-- `VelesProtocol.request_id`: send the handshake line with initial data,
then fire `request_id`. -/
def request_id (p : ProtocolState) : Except PyError (ProtocolState × List Output) := do
  let p1 ← fireEvent p "request_id"
  .ok (p1, [Output.requestIdLine])

/-- `VelesProtocol.request_job`: fire `request_job` first, then send the
`job` command on the data channel. -/
def request_job (p : ProtocolState) (delta : Nat) :
    Except PyError (ProtocolState × List Output) := do
  let p1 ← fireEvent p "request_job"
  zmqRequestP p1 "job" "" delta

/-- `VelesProtocol.request_update`: take the retained update (clearing it),
and send it as the `update` command (`update or b''`; the asynchronous-mode
`copy(update)` is value-identical). -/
def request_update (p : ProtocolState) (delta : Nat) :
    Except PyError (ProtocolState × List Output) := do
  let update := p.last_update
  let p1 := { p with last_update := none }
  let (p2, outs) ← zmqRequestP p1 "update" (update.getD "") delta
  .ok (p2, Output.logDebug "Sending the update..." :: outs)

/-- `VelesProtocol.disconnect`: log the error, fire `disconnect`, close the
transport. -/
def disconnectOp (p : ProtocolState) (msg : String) :
    Except PyError (ProtocolState × List Output) := do
  let p1 ← fireEvent p "disconnect"
  .ok (p1, [Output.logError msg, Output.loseConnection])

/-- `self.factory.disconnect_time = None` (in `connectionMade`). -/
def clearDisconnectTime (p : ProtocolState) : ProtocolState :=
  { p with factory := { p.factory with disconnect_time := none } }

/-- `VelesProtocol.connectionMade`: clear the disconnect timestamp; with no
identity yet, request one; otherwise re-send the retained identity and fire
`send_id`. -/
def connectionMade (p0 : ProtocolState) : Except PyError (ProtocolState × List Output) :=
  let info := Output.logInfo "Connected"
  let p := clearDisconnectTime p0
  match p.factory.id with
  | none => do
    let (p1, outs) ← request_id p
    .ok (p1, info :: outs)
  | some _ => do
    let p1 ← fireEvent p "send_id"
    .ok (p1, [info, Output.sendIdLine p.factory.id])

/-- `VelesProtocol.connectionLost`: cancel the current deferred when one is
set.  (`_current_deferred` itself is not cleared.) -/
def connectionLost (p : ProtocolState) : ProtocolState × List Output :=
  if p.current_deferred then
    (p, [Output.logDebug "Connection was lost", Output.cancelDeferred])
  else
    (p, [Output.logDebug "Connection was lost"])

/-- Outcome classes of an execution deferred. -/
inductive FailureKind where
  | cancelled
  | other (msg : String)
deriving DecidableEq, Repr

/-- The errback installed by `_set_deferred`: a `CancelledError` is silently
dropped; any other failure goes to the process-level error reporter. -/
def cancellable_errback : FailureKind → List Output
  | .cancelled => []
  | .other msg => [Output.errback msg]

/-- A parsed control-channel line: either not a structured object, or an
object with the fields `lineReceived` consults. -/
inductive LineMsg where
  | nonDict
  | dict (error reconnect id endpoint data : Option String)
deriving DecidableEq, Repr

/-- `VelesProtocol.lineReceived`, for an already-parsed line. -/
def lineReceived (p : ProtocolState) (line : LineMsg) (delta : Nat) :
    Except PyError (ProtocolState × List Output) :=
  let dbg := Output.logDebug "lineReceived"
  match line with
  | .nonDict =>
    .ok (p, [dbg, Output.logError "Could not parse the received line, dropping it"])
  | .dict err reconn cid endpoint data =>
    if err.getD "" ≠ "" then do
      let (p1, outs) ← disconnectOp p "Server returned error"
      .ok (p1, dbg :: outs)
    else if p.factory.fsmState = some "WAIT" then
      if reconn = some "ok" then
        match p.factory.id with
        | none => do
          let (p1, outs) ← request_id p
          .ok (p1, dbg :: Output.logError
            "Server returned a successful reconnection, but my ID is None" :: outs)
        | some _ => do
          let (p1, outs) ← request_job p delta
          .ok (p1, dbg :: outs)
      else
        match cid with
        | none => do
          let (p1, outs) ← request_id p
          .ok (p1, dbg :: Output.logError "No ID was received in WAIT state" :: outs)
        | some c =>
          let p1 := { p with factory := { p.factory with id := some c } }
          match endpoint with
          | none => do
            let (p2, outs) ← request_id p1
            .ok (p2, dbg :: Output.logInfo "My ID" ::
              Output.logError "No endpoint was received" :: outs)
          | some ep =>
            let p2 := { p1 with factory :=
              { p1.factory with zmq_connection := some (ZmqDealer.init c ep) } }
            let (p3, outs0) :=
              match data with
              | some dd =>
                ({ p2 with current_deferred := true }, [Output.dispatchInitialData dd])
              | none => (p2, [])
            do
              let (p4, outs1) ← request_job p3 delta
              .ok (p4, dbg :: Output.logInfo "My ID" ::
                Output.logInfo "Connected to ZeroMQ endpoint" :: (outs0 ++ outs1))
    else do
      let (p1, outs) ← disconnectOp p "Invalid state"
      .ok (p1, dbg :: outs)

/-- `VelesProtocol.job_received(job)`.  `deathRoll` is the value drawn by
`numpy.random.random()`; `delta` the latency of any data-channel send. -/
def job_received (p : ProtocolState) (job : String) (deathRoll : ℚ) (delta : Nat) :
    Except PyError (ProtocolState × List Output) := do
  let (p1, outs1) ←
    if job = "" then do
      let q ← fireEvent p "refuse_job"
      .ok (q, [Output.logInfo "Job was refused"])
    else if job = "NEED_UPDATE" then do
      let q ← fireEvent p "postpone_job"
      .ok (q, [Output.logDebug
        "Master returned NEED_UPDATE, will repeat the job request in update_result_received()"])
    else do
      let q ← fireEvent p "obtain_job"
      .ok (q, ([] : List Output))
  let update := p1.last_update
  let (p2, outs2) ←
    if p1.async ∧ update ≠ none then request_update p1 delta
    else .ok (p1, ([] : List Output))
  if job = "NEED_UPDATE" then
    .ok (p2, outs1 ++ outs2)
  else if job = "" ∧ ¬ p2.async then
    .ok (p2, outs1 ++ outs2 ++ [Output.launcherStop])
  else if deathRoll < p2.death_probability then
    .ok (p2, outs1 ++ outs2 ++ [Output.errback "Bug: this slave has randomly crashed"])
  else
    .ok ({ p2 with current_deferred := true },
      outs1 ++ outs2 ++ [Output.dispatchJob job update])

/-- `VelesProtocol.job_finished(update)`. -/
def job_finished (p : ProtocolState) (update : String) (delta : Nat) :
    Except PyError (ProtocolState × List Output) :=
  if p.factory.fsmState ≠ some "BUSY" then
    .ok (p, [Output.logError "Invalid state"])
  else do
    let p1 := { p with last_update := some update }
    let p2 ← fireEvent p1 "complete_job"
    if p2.async then request_job p2 delta else request_update p2 delta

/-- `VelesProtocol.update_result_received(result)`. -/
def update_result_received (p : ProtocolState) (result : String) (delta : Nat) :
    Except PyError (ProtocolState × List Output) := do
  let outs1 ←
    if result = "0" then .ok [Output.logWarning "Last update was rejected"]
    else if result = "1" then .ok [Output.logDebug "Update was confirmed"]
    else .error PyError.assertionError
  if p.factory.fsmState = some "END" then
    .ok (p, outs1 ++ [Output.launcherStop])
  else if ¬ p.async ∨ p.factory.fsmState = some "POSTPONED" then do
    let (p2, outs2) ← request_job p delta
    .ok (p2, outs1 ++ outs2)
  else
    .ok (p, outs1)

/-! ## Reconnection manager (`VelesProtocolFactory`) -/

/-- `VelesProtocolFactory.RECONNECTION_INTERVAL`. -/
def RECONNECTION_INTERVAL : Nat := 1

/-- `VelesProtocolFactory.RECONNECTION_ATTEMPTS`. -/
def RECONNECTION_ATTEMPTS : Nat := 60

/-- `VelesProtocolFactory.clientConnectionLost`, at wall-clock time `now`. -/
def clientConnectionLost (f : FactoryState) (now : Nat) :
    Except PyError (FactoryState × List Output) :=
  if f.fsmState = none ∨ (f.fsmState ≠ some "ERROR" ∧ f.fsmState ≠ some "END") then do
    let f1 ←
      match f.fsmState with
      | none => .ok f
      | some cur =>
        match fysomFire fsmEvents cur "reconnect" with
        | some dst => .ok { f with fsmState := some dst }
        | none => .error (PyError.fysomError "reconnect" cur)
    let f2 := if f1.disconnect_time = none
      then { f1 with disconnect_time := some now } else f1
    if RECONNECTION_ATTEMPTS <
        (now - f2.disconnect_time.getD now) / RECONNECTION_INTERVAL then
      .ok (f2, [Output.logError "Max reconnection attempts reached, exiting",
                Output.launcherStop])
    else
      .ok (f2, [Output.logWarning "Disconnected, trying to reconnect...",
                Output.scheduleReconnect])
  else
    if f.fsmState = some "ERROR" then
      .ok (f, [Output.logInfo "Disconnected", Output.launcherStop])
    else
      .ok (f, [Output.logInfo "Disconnected"])

/-- One full reconnection cycle: the transport drops at time `now`
(`connectionLost` then `clientConnectionLost`), a new protocol instance is
built over the surviving factory state, its `connectionMade` re-sends the
retained identity, and the server acknowledges with `{reconnect: ok}`.  When
the reconnection attempt cap was exceeded, no new connection happens and the
factory state after `clientConnectionLost` is returned unchanged. -/
def reconnectCycle (p : ProtocolState) (now delta : Nat) :
    Except PyError (ProtocolState × List Output) := do
  let (p0, outsA) := connectionLost p
  let (f1, outsB) ← clientConnectionLost p0.factory now
  if Output.scheduleReconnect ∈ outsB then
    let p1 := VelesProtocol.init f1 p0.async p0.death_probability
    let (p2, outsC) ← connectionMade p1
    let (p3, outsD) ← lineReceived p2 (LineMsg.dict none (some "ok") none none none) delta
    .ok (p3, outsA ++ outsB ++ outsC ++ outsD)
  else
    .ok ({ p0 with factory := f1 }, outsA ++ outsB)

/-! ## Concrete example states (used by witnesses and counterexamples) -/

/-- A data channel over a tcp endpoint (not local-host). -/
def exDealerTcp : ZmqDealerState := ZmqDealer.init "w1" "tcp://h:1"

/-- A data channel over an ipc endpoint (local-host). -/
def exDealerIpc : ZmqDealerState := ZmqDealer.init "w1" "ipc://x"

/-- A session in `GETTING_JOB` running asynchronously with a pending update. -/
def exProtoAsync : ProtocolState :=
  { factory := { id := some "A", fsmState := some "GETTING_JOB",
                 zmq_connection := some exDealerTcp, disconnect_time := none }
    last_update := some "U"
    async := true
    death_probability := 0
    current_deferred := false }

/-- A synchronous session in `BUSY` with an outstanding execution. -/
def exProtoSync : ProtocolState :=
  { factory := { id := some "A", fsmState := some "BUSY",
                 zmq_connection := some exDealerTcp, disconnect_time := none }
    last_update := none
    async := false
    death_probability := 0
    current_deferred := true }

/-! ## Helper lemmas -/

theorem fysomFire_dst_mem {cur e dst : String}
    (h : fysomFire fsmEvents cur e = some dst) : dst ∈ fsmStates := by
  unfold fysomFire at h
  split at h
  case h_1 ev hf =>
    injection h with h
    subst h
    have hmem : ev ∈ fsmEvents := List.mem_of_find?_eq_some hf
    simp only [fsmEvents, List.mem_cons, List.not_mem_nil, or_false] at hmem
    rcases hmem with rfl | rfl | rfl | rfl | rfl | rfl | rfl | rfl | rfl
    all_goals decide
  case h_2 => cases h

theorem foldl_stepEvents_none (seq : List String) :
    seq.foldl stepEvents none = none := by
  induction seq with
  | nil => rfl
  | cons e rest ih => simpa [stepEvents] using ih

theorem foldl_stepEvents_mem (seq : List String) :
    ∀ c s, c ∈ fsmStates → seq.foldl stepEvents (some c) = some s →
      s ∈ fsmStates := by
  induction seq with
  | nil =>
    intro c s hc h
    simp only [List.foldl_nil, Option.some.injEq] at h
    exact h ▸ hc
  | cons e rest ih =>
    intro c s hc h
    simp only [List.foldl_cons] at h
    cases hf : stepEvents (some c) e with
    | none => rw [hf, foldl_stepEvents_none] at h; cases h
    | some c' =>
      rw [hf] at h
      have hc' : c' ∈ fsmStates := by
        simp only [stepEvents, Option.bind_some] at hf
        exact fysomFire_dst_mem hf
      exact ih c' s hc' h

/-- C1: for every sequence of fired events the session state machine only ever
occupies a state in {INIT, WAIT, GETTING_JOB, BUSY, POSTPONED, END, ERROR};
every event fired from a listed source state moves to exactly the destination
of the §4.1 table (and an event fired from an unlisted state yields no
transition there); and firing an inappropriate event is rejected by the
implementation as a fatal `FysomError`, never silently coerced. -/
theorem C1_fsm_transition_table :
    (∀ seq s, runEvents seq = some s → s ∈ fsmStates) ∧
    (∀ cur ∈ fsmStates, ∀ e ∈ fsmEventNames,
      fysomFire fsmEvents cur e = specTable cur e) ∧
    (∀ (p : ProtocolState) (cur e : String), p.factory.fsmState = some cur →
      fysomFire fsmEvents cur e = none →
      fireEvent p e = .error (PyError.fysomError e cur)) := by
  refine ⟨?_, ?_, ?_⟩
  · intro seq s h
    exact foldl_stepEvents_mem seq fsmInitial s (by decide) h
  · decide
  · intro p cur e h1 h2
    simp [fireEvent, h1, h2]

/-- Witness for C1: a concrete run reaches `BUSY`, the table is matched at
(`WAIT`, `obtain_job`), and firing `obtain_job` from `BUSY` is a fatal error. -/
theorem C1_fsm_transition_table_witness :
    ("BUSY" ∈ fsmStates) ∧
    (fysomFire fsmEvents "WAIT" "obtain_job" = specTable "WAIT" "obtain_job") ∧
    (fireEvent exProtoSync "obtain_job" =
      .error (PyError.fysomError "obtain_job" "BUSY")) :=
  ⟨C1_fsm_transition_table.1 ["request_id", "request_job", "obtain_job"] "BUSY"
      (by decide),
   C1_fsm_transition_table.2.1 "WAIT" (by decide) "obtain_job" (by decide),
   C1_fsm_transition_table.2.2 exProtoSync "BUSY" "obtain_job" (by decide)
      (by decide)⟩

theorem fireEvent_ne_assert (p : ProtocolState) (e : String) :
    fireEvent p e ≠ .error PyError.assertionError := by
  unfold fireEvent
  split
  · simp
  · split <;> simp

theorem zmqRequestP_ne_assert (p : ProtocolState) (c m : String) (delta : Nat) :
    zmqRequestP p c m delta ≠ .error PyError.assertionError := by
  unfold zmqRequestP
  split <;> simp

theorem request_job_ne_assert (p : ProtocolState) (delta : Nat) :
    request_job p delta ≠ .error PyError.assertionError := by
  unfold request_job
  cases hf : fireEvent p "request_job" with
  | error e =>
    have h := fireEvent_ne_assert p "request_job"
    rw [hf] at h
    simpa [Bind.bind, Except.bind] using h
  | ok q =>
    have h := zmqRequestP_ne_assert q "job" "" delta
    simpa [Bind.bind, Except.bind] using h

theorem bindJob_ne_assert (p : ProtocolState) (delta : Nat) (outs1 : List Output) :
    (do
      let (p2, outs2) ← request_job p delta
      (.ok (p2, outs1 ++ outs2) : Except PyError (ProtocolState × List Output)))
      ≠ .error PyError.assertionError := by
  cases hrj : request_job p delta with
  | error e =>
    have h := request_job_ne_assert p delta
    rw [hrj] at h
    simpa [Bind.bind, Except.bind] using h
  | ok r => simp [Bind.bind, Except.bind]

/-- C9: `update_result_received` with a result payload other than `b'0'` or
`b'1'` raises an assertion failure; the two sentinel payloads never do. -/
theorem C9_update_result_assertion :
    (∀ (p : ProtocolState) (result : String) (delta : Nat),
      result ≠ "0" → result ≠ "1" →
      update_result_received p result delta = .error PyError.assertionError) ∧
    (∀ (p : ProtocolState) (result : String) (delta : Nat),
      result = "0" ∨ result = "1" →
      update_result_received p result delta ≠ .error PyError.assertionError) := by
  constructor
  · intro p result delta h0 h1
    simp [update_result_received, h0, h1, Bind.bind, Except.bind]
  · rintro p result delta (rfl | rfl) <;>
    · unfold update_result_received
      simp only [Bind.bind, Except.bind, reduceIte, String.reduceEq]
      split
      · simp
      · split
        · exact bindJob_ne_assert p delta _
        · simp

/-- Witness for C9: the payload `b'2'` is rejected with an assertion failure,
while `b'1'` is not. -/
theorem C9_update_result_assertion_witness :
    (update_result_received exProtoSync "2" 0 = .error PyError.assertionError) ∧
    (update_result_received exProtoSync "1" 0 ≠ .error PyError.assertionError) :=
  ⟨C9_update_result_assertion.1 exProtoSync "2" 0 (by decide) (by decide),
   C9_update_result_assertion.2 exProtoSync "1" 0 (Or.inr rfl)⟩

/-- C8: on transport loss with an outstanding deferred, the deferred is
cancelled; the errback installed by `_set_deferred` silently drops a
cancellation and reports every other failure through `errback`. -/
theorem C8_cancellation_filter :
    (∀ p : ProtocolState, p.current_deferred = true →
      connectionLost p =
        (p, [Output.logDebug "Connection was lost", Output.cancelDeferred])) ∧
    (cancellable_errback .cancelled = []) ∧
    (∀ msg, cancellable_errback (.other msg) = [Output.errback msg]) := by
  refine ⟨?_, rfl, fun msg => rfl⟩
  intro p h
  simp [connectionLost, h]

/-- Witness for C8 at a session with an outstanding execution. -/
theorem C8_cancellation_filter_witness :
    (connectionLost exProtoSync =
      (exProtoSync, [Output.logDebug "Connection was lost", Output.cancelDeferred])) ∧
    (cancellable_errback .cancelled = []) ∧
    (cancellable_errback (.other "boom") = [Output.errback "boom"]) :=
  ⟨C8_cancellation_filter.1 exProtoSync rfl, C8_cancellation_filter.2.1,
   C8_cancellation_filter.2.2 "boom"⟩

theorem seekIfUpdate_id (d : ZmqDealerState) (c : String) :
    (seekIfUpdate d c).id = d.id := by
  unfold seekIfUpdate
  split <;> rfl

theorem request_snd_cases (d : ZmqDealerState) (c m : String) (delta : Nat) :
    (ZmqDealer.request d c m delta).2 = [] ∨
    ∃ b, (ZmqDealer.request d c m delta).2 = [Output.zmqSend d.id c m b] := by
  rw [← seekIfUpdate_id d c]
  show (ZmqDealer.request d c m delta).2 = [] ∨
    ∃ b, (ZmqDealer.request d c m delta).2 = [Output.zmqSend (seekIfUpdate d c).id c m b]
  unfold ZmqDealer.request
  cases he : (seekIfUpdate d c).shmem with
  | some sh =>
    simp only [he]
    split
    · left; rfl
    · right; exact ⟨true, rfl⟩
  | none =>
    simp only [he]
    right; exact ⟨false, rfl⟩

theorem request_snd_payload (d : ZmqDealerState) (c m : String) (delta : Nat)
    {i c' m' : String} {b : Bool}
    (h : Output.zmqSend i c' m' b ∈ (ZmqDealer.request d c m delta).2) :
    m' = m := by
  rcases request_snd_cases d c m delta with hc | ⟨b', hc⟩ <;> rw [hc] at h
  · cases h
  · rcases List.mem_singleton.mp h with he
    injection he with h1 h2 h3 h4

theorem request_no_stop (d : ZmqDealerState) (c m : String) (delta : Nat) :
    Output.launcherStop ∉ (ZmqDealer.request d c m delta).2 := by
  rcases request_snd_cases d c m delta with hc | ⟨b', hc⟩ <;> rw [hc] <;> simp

theorem request_no_dispatch (d : ZmqDealerState) (c m : String) (delta : Nat)
    (job : String) (u : Option String) :
    Output.dispatchJob job u ∉ (ZmqDealer.request d c m delta).2 := by
  rcases request_snd_cases d c m delta with hc | ⟨b', hc⟩ <;> rw [hc] <;> simp

/-- C6: every call of `request_update` sends the `update` command carrying the
retained update (`update or b''`), and afterwards the retained update is
`None` — so at most one pending update ever exists. -/
theorem C6_request_update (p : ProtocolState) (d : ZmqDealerState) (delta : Nat)
    (hz : p.factory.zmq_connection = some d) :
    (request_update p delta = .ok
      ({ p with
          last_update := none
          factory := { p.factory with
            zmq_connection :=
              some (ZmqDealer.request d "update" (p.last_update.getD "") delta).1 } },
       Output.logDebug "Sending the update..." ::
         (ZmqDealer.request d "update" (p.last_update.getD "") delta).2)) ∧
    (∀ (i c m : String) (b : Bool), Output.zmqSend i c m b ∈
        (ZmqDealer.request d "update" (p.last_update.getD "") delta).2 →
      m = p.last_update.getD "") := by
  constructor
  · simp [request_update, zmqRequestP, hz, Bind.bind, Except.bind]
  · intro i c m b h
    exact request_snd_payload d "update" (p.last_update.getD "") delta h

/-- Witness for C6: the asynchronous example session with pending update
`"U"` sends it and clears the retained update. -/
theorem C6_request_update_witness :
    request_update exProtoAsync 0 = .ok
      ({ exProtoAsync with
          last_update := none
          factory := { exProtoAsync.factory with
            zmq_connection :=
              some (ZmqDealer.request exDealerTcp "update"
                (exProtoAsync.last_update.getD "") 0).1 } },
       Output.logDebug "Sending the update..." ::
         (ZmqDealer.request exDealerTcp "update"
           (exProtoAsync.last_update.getD "") 0).2) :=
  (C6_request_update exProtoAsync exDealerTcp 0 rfl).1

/-- C7: `job_finished(update)` outside `BUSY` is a logged error and a no-op;
in `BUSY` it retains the update as the pending Update and fires `complete_job`
(`→ WAIT`); then the asynchronous mode requests the next job (reaching
`GETTING_JOB`, pending Update retained) while the synchronous mode requests
the update upload instead (pending Update sent and cleared). -/
theorem C7_job_finished :
    (∀ (p : ProtocolState) (u : String) (delta : Nat),
      p.factory.fsmState ≠ some "BUSY" →
      job_finished p u delta = .ok (p, [Output.logError "Invalid state"])) ∧
    (∀ (p : ProtocolState) (u : String) (delta : Nat) (d : ZmqDealerState),
      p.factory.fsmState = some "BUSY" → p.factory.zmq_connection = some d →
      p.async = true →
      job_finished p u delta = .ok
        ({ p with
            last_update := some u
            factory := { p.factory with
              fsmState := some "GETTING_JOB"
              zmq_connection := some (ZmqDealer.request d "job" "" delta).1 } },
         (ZmqDealer.request d "job" "" delta).2)) ∧
    (∀ (p : ProtocolState) (u : String) (delta : Nat) (d : ZmqDealerState),
      p.factory.fsmState = some "BUSY" → p.factory.zmq_connection = some d →
      p.async = false →
      job_finished p u delta = .ok
        ({ p with
            last_update := none
            factory := { p.factory with
              fsmState := some "WAIT"
              zmq_connection := some (ZmqDealer.request d "update" u delta).1 } },
         Output.logDebug "Sending the update..." ::
           (ZmqDealer.request d "update" u delta).2)) := by
  refine ⟨?_, ?_, ?_⟩
  · intro p u delta h
    simp [job_finished, h]
  · intro p u delta d hs hz ha
    simp [job_finished, hs, fireEvent, fysomFire, fsmEvents, List.find?, ha,
      request_job, zmqRequestP, hz, Bind.bind, Except.bind]
  · intro p u delta d hs hz ha
    simp [job_finished, hs, fireEvent, fysomFire, fsmEvents, List.find?, ha,
      request_update, zmqRequestP, hz, Bind.bind, Except.bind]

/-- Witness for C7: a non-`BUSY` call is a no-op; the synchronous `BUSY`
example completes the job and uploads the update. -/
theorem C7_job_finished_witness :
    (job_finished exProtoAsync "V" 0 =
      .ok (exProtoAsync, [Output.logError "Invalid state"])) ∧
    (job_finished exProtoSync "V" 0 = .ok
      ({ exProtoSync with
          last_update := none
          factory := { exProtoSync.factory with
            fsmState := some "WAIT"
            zmq_connection :=
              some (ZmqDealer.request exDealerTcp "update" "V" 0).1 } },
       Output.logDebug "Sending the update..." ::
         (ZmqDealer.request exDealerTcp "update" "V" 0).2)) :=
  ⟨C7_job_finished.1 exProtoAsync "V" 0 (by decide),
   C7_job_finished.2.2 exProtoSync "V" 0 exDealerTcp rfl rfl rfl⟩

/-- C10: in asynchronous mode an empty job (refusal) fires `refuse_job`
(`→ END`), does not stop the worker process, and still dispatches
`workflow.do_job` with the empty job payload (the data-channel send outputs
never contain a process stop, third conjunct). -/
theorem C10_async_empty_job :
    (∀ (p : ProtocolState) (dr : ℚ) (delta : Nat) (d : ZmqDealerState) (u : String),
      p.factory.fsmState = some "GETTING_JOB" → p.factory.zmq_connection = some d →
      p.async = true → ¬ dr < p.death_probability → p.last_update = some u →
      job_received p "" dr delta = .ok
        ({ p with
            last_update := none
            current_deferred := true
            factory := { p.factory with
              fsmState := some "END"
              zmq_connection := some (ZmqDealer.request d "update" u delta).1 } },
         Output.logInfo "Job was refused" ::
           Output.logDebug "Sending the update..." ::
           ((ZmqDealer.request d "update" u delta).2 ++
             [Output.dispatchJob "" (some u)]))) ∧
    (∀ (p : ProtocolState) (dr : ℚ) (delta : Nat),
      p.factory.fsmState = some "GETTING_JOB" →
      p.async = true → ¬ dr < p.death_probability → p.last_update = none →
      job_received p "" dr delta = .ok
        ({ p with
            current_deferred := true
            factory := { p.factory with fsmState := some "END" } },
         [Output.logInfo "Job was refused", Output.dispatchJob "" none])) ∧
    (∀ (d : ZmqDealerState) (c m : String) (delta : Nat),
      Output.launcherStop ∉ (ZmqDealer.request d c m delta).2) := by
  refine ⟨?_, ?_, request_no_stop⟩
  · intro p dr delta d u hs hz ha hdr hu
    simp [job_received, hs, hz, ha, hdr, hu, fireEvent, fysomFire, fsmEvents,
      List.find?, request_update, zmqRequestP, Bind.bind, Except.bind]
  · intro p dr delta hs ha hdr hu
    simp [job_received, hs, ha, hdr, hu, fireEvent, fysomFire, fsmEvents,
      List.find?, Bind.bind, Except.bind]

/-- Witness for C10: the asynchronous example session receiving an empty job
moves to `END` yet dispatches `do_job` with the empty payload. -/
theorem C10_async_empty_job_witness :
    job_received exProtoAsync "" 1 0 = .ok
      ({ exProtoAsync with
          last_update := none
          current_deferred := true
          factory := { exProtoAsync.factory with
            fsmState := some "END"
            zmq_connection :=
              some (ZmqDealer.request exDealerTcp "update" "U" 0).1 } },
       Output.logInfo "Job was refused" ::
         Output.logDebug "Sending the update..." ::
         ((ZmqDealer.request exDealerTcp "update" "U" 0).2 ++
           [Output.dispatchJob "" (some "U")])) :=
  C10_async_empty_job.1 exProtoAsync 1 0 exDealerTcp "U" rfl rfl rfl
    (by decide) rfl

/-- C3 counterexample: the claim says the asynchronous-mode pipelined
`requestUpdate` is NOT performed for a `NEED_UPDATE` job, but in the
asynchronous example session with a pending update the `update` command IS
sent (the `request_update` call precedes the `NEED_UPDATE` early return in
`job_received`).  `postpone_job` fires and no execution is dispatched. -/
theorem C3_need_update_counterexample :
    Except.map (fun r => (r.1.factory.fsmState,
        r.2.contains (Output.zmqSend "w1" "update" "U" false),
        r.2.contains (Output.dispatchJob "NEED_UPDATE" (some "U"))))
      (job_received exProtoAsync "NEED_UPDATE" 1 0)
    = .ok (some "POSTPONED", true, false) := by rfl

/-- C3 (amended): on a `NEED_UPDATE` job, `postpone_job` fires and
`job_received` returns without dispatching execution; but when running
asynchronously with a pending Update, the pipelined `requestUpdate` IS
performed (sending and clearing the pending Update) before the early
return — it is only skipped when the mode is synchronous or no pending
Update exists. -/
theorem C3_need_update_amended :
    (∀ (p : ProtocolState) (d : ZmqDealerState) (u : String) (dr : ℚ) (delta : Nat),
      p.factory.fsmState = some "GETTING_JOB" → p.factory.zmq_connection = some d →
      p.async = true → p.last_update = some u →
      job_received p "NEED_UPDATE" dr delta = .ok
        ({ p with
            last_update := none
            factory := { p.factory with
              fsmState := some "POSTPONED"
              zmq_connection := some (ZmqDealer.request d "update" u delta).1 } },
         Output.logDebug
             "Master returned NEED_UPDATE, will repeat the job request in update_result_received()" ::
           Output.logDebug "Sending the update..." ::
           (ZmqDealer.request d "update" u delta).2)) ∧
    (∀ (p : ProtocolState) (dr : ℚ) (delta : Nat),
      p.factory.fsmState = some "GETTING_JOB" →
      (p.async = false ∨ p.last_update = none) →
      job_received p "NEED_UPDATE" dr delta = .ok
        ({ p with factory := { p.factory with fsmState := some "POSTPONED" } },
         [Output.logDebug
           "Master returned NEED_UPDATE, will repeat the job request in update_result_received()"])) := by
  constructor
  · intro p d u dr delta hs hz ha hu
    simp [job_received, hs, hz, ha, hu, fireEvent, fysomFire, fsmEvents,
      List.find?, request_update, zmqRequestP, Bind.bind, Except.bind]
  · intro p dr delta hs hcase
    rcases hcase with ha | hu
    · simp [job_received, hs, ha, fireEvent, fysomFire, fsmEvents, List.find?,
        Bind.bind, Except.bind]
    · simp [job_received, hs, hu, fireEvent, fysomFire, fsmEvents, List.find?,
        Bind.bind, Except.bind]

/-- Witness for the amended C3 at the asynchronous example session. -/
theorem C3_need_update_amended_witness :
    job_received exProtoAsync "NEED_UPDATE" 1 0 = .ok
      ({ exProtoAsync with
          last_update := none
          factory := { exProtoAsync.factory with
            fsmState := some "POSTPONED"
            zmq_connection :=
              some (ZmqDealer.request exDealerTcp "update" "U" 0).1 } },
       Output.logDebug
           "Master returned NEED_UPDATE, will repeat the job request in update_result_received()" ::
         Output.logDebug "Sending the update..." ::
         (ZmqDealer.request exDealerTcp "update" "U" 0).2) :=
  C3_need_update_amended.1 exProtoAsync exDealerTcp "U" 1 0 rfl rfl rfl rfl

theorem request_fst_id (d : ZmqDealerState) (c m : String) (delta : Nat) :
    (ZmqDealer.request d c m delta).1.id = d.id := by
  unfold ZmqDealer.request
  cases he : (seekIfUpdate d c).shmem with
  | some sh =>
    simp only [he]
    split <;> simp [seekIfUpdate_id]
  | none =>
    simp only [he]
    split <;> simp [seekIfUpdate_id]

theorem request_fresh_alloc (d : ZmqDealerState) (m : String) (delta : Nat)
    (hipc : d.is_ipc = true) (hsh : d.shmem = none) :
    (ZmqDealer.request d "update" m delta).1.shmem =
        some { name := "veles-update-" ++ d.id,
               capacity := reserveShmemSize m.length, pos := 0 } ∧
      (ZmqDealer.request d "update" m delta).2 =
        [Output.zmqSend d.id "update" m false] := by
  constructor <;>
    simp [ZmqDealer.request, seekIfUpdate, hipc, hsh]

theorem request_rewind_write (d : ZmqDealerState) (sh : SharedBuffer)
    (m : String) (delta : Nat)
    (hsh : d.shmem = some sh) (hfit : m.length ≤ sh.capacity) :
    (ZmqDealer.request d "update" m delta).1.shmem =
        some { sh with pos := m.length } ∧
      (ZmqDealer.request d "update" m delta).2 =
        [Output.zmqSend d.id "update" m true] := by
  have hnot : ¬ (sh.capacity < m.length) := by omega
  constructor <;>
    simp [ZmqDealer.request, seekIfUpdate, hsh, hnot]

theorem request_overflow_drop (d : ZmqDealerState) (sh : SharedBuffer)
    (m : String) (delta : Nat)
    (hsh : d.shmem = some sh) (hbig : sh.capacity < m.length) :
    (ZmqDealer.request d "update" m delta).1.shmem = none ∧
      (ZmqDealer.request d "update" m delta).2 = [] := by
  constructor <;>
    simp [ZmqDealer.request, seekIfUpdate, hsh, hbig]

/-- Concrete shared-buffer run: first update of 4 bytes (ipc endpoint). -/
def c5Step1 : ZmqDealerState × List Output :=
  ZmqDealer.request exDealerIpc "update" "AAAA" 0

/-- Second update, 10 bytes: overflows the 4-byte buffer. -/
def c5Step2 : ZmqDealerState × List Output :=
  ZmqDealer.request c5Step1.1 "update" "AAAAAAAAAA" 0

/-- Third update, 2 bytes: sent on the normal path, reallocates a buffer. -/
def c5Step3 : ZmqDealerState × List Output :=
  ZmqDealer.request c5Step2.1 "update" "BB" 0

/-- Fourth update, 2 bytes: goes through the shared path again. -/
def c5Step4 : ZmqDealerState × List Output :=
  ZmqDealer.request c5Step3.1 "update" "CC" 0

/-- C5 counterexample: after an overflow drops the SharedBuffer (second
update), the next successful update reallocates a fresh buffer and the one
after that is transmitted via the shared path again — the fallback to the
non-shared path is not permanent, contradicting the claim's final part. -/
theorem C5_shared_buffer_counterexample :
    c5Step1.1.shmem = some { name := "veles-update-w1", capacity := 4, pos := 0 } ∧
    c5Step2.1.shmem = none ∧
    c5Step2.2 = [] ∧
    c5Step3.1.shmem = some { name := "veles-update-w1", capacity := 2, pos := 0 } ∧
    c5Step4.2 = [Output.zmqSend "w1" "update" "CC" true] :=
  ⟨rfl, rfl, rfl, rfl, rfl⟩

/-- C5 (amended): on a local-host transport the first update transmission
allocates a SharedBuffer sized to `floor(payload_size * 1.05)`; every
subsequent shared update rewinds to offset 0 before writing; a payload that
overflows the capacity drops the SharedBuffer and is itself not transmitted
through it; but the fallback is NOT permanent: the next successful update,
finding no buffer, allocates a fresh SharedBuffer sized to its own payload,
and the shared path is re-entered from the following update onward. -/
theorem C5_shared_buffer_amended :
    (∀ (d : ZmqDealerState) (m : String) (delta : Nat),
      d.is_ipc = true → d.shmem = none →
      (ZmqDealer.request d "update" m delta).1.shmem =
          some { name := "veles-update-" ++ d.id,
                 capacity := reserveShmemSize m.length, pos := 0 } ∧
        (ZmqDealer.request d "update" m delta).2 =
          [Output.zmqSend d.id "update" m false]) ∧
    (∀ (d : ZmqDealerState) (sh : SharedBuffer) (m : String) (delta : Nat),
      d.shmem = some sh → m.length ≤ sh.capacity →
      (ZmqDealer.request d "update" m delta).1.shmem =
          some { sh with pos := m.length } ∧
        (ZmqDealer.request d "update" m delta).2 =
          [Output.zmqSend d.id "update" m true]) ∧
    (∀ (d : ZmqDealerState) (sh : SharedBuffer) (m : String) (delta : Nat),
      d.shmem = some sh → sh.capacity < m.length →
      (ZmqDealer.request d "update" m delta).1.shmem = none ∧
        (ZmqDealer.request d "update" m delta).2 = []) ∧
    (∀ (d : ZmqDealerState) (m m' : String) (delta delta' : Nat),
      d.is_ipc = true → d.shmem = none →
      m'.length ≤ reserveShmemSize m.length →
      (ZmqDealer.request (ZmqDealer.request d "update" m delta).1
          "update" m' delta').2 =
        [Output.zmqSend d.id "update" m' true]) := by
  refine ⟨request_fresh_alloc, request_rewind_write, request_overflow_drop, ?_⟩
  intro d m m' delta delta' hipc hsh hfit
  obtain ⟨h1, _⟩ := request_fresh_alloc d m delta hipc hsh
  have h2 := request_rewind_write (ZmqDealer.request d "update" m delta).1
    { name := "veles-update-" ++ d.id,
      capacity := reserveShmemSize m.length, pos := 0 } m' delta' h1 hfit
  rw [h2.2, request_fst_id]

/-- Witness for the amended C5: a fresh ipc dealer's first 4-byte update
allocates a 4-byte buffer and is sent on the normal path. -/
theorem C5_shared_buffer_amended_witness :
    (ZmqDealer.request exDealerIpc "update" "AAAA" 0).1.shmem =
        some { name := "veles-update-" ++ exDealerIpc.id,
               capacity := reserveShmemSize ("AAAA".length), pos := 0 } ∧
      (ZmqDealer.request exDealerIpc "update" "AAAA" 0).2 =
        [Output.zmqSend exDealerIpc.id "update" "AAAA" false] :=
  C5_shared_buffer_amended.1 exDealerIpc "AAAA" 0 rfl rfl

theorem fireEvent_ok_id (p : ProtocolState) (e : String) (q : ProtocolState)
    (h : fireEvent p e = .ok q) : q.factory.id = p.factory.id := by
  unfold fireEvent at h
  split at h
  · cases h
  · split at h
    · injection h with h
      subst h
      rfl
    · cases h

theorem zmqRequestP_ok_id (p : ProtocolState) (c m : String) (delta : Nat)
    (r : ProtocolState × List Output) (h : zmqRequestP p c m delta = .ok r) :
    r.1.factory.id = p.factory.id := by
  unfold zmqRequestP at h
  split at h
  · cases h
  · injection h with h
    subst h
    rfl

theorem request_id_ok_id (p : ProtocolState)
    (r : ProtocolState × List Output) (h : request_id p = .ok r) :
    r.1.factory.id = p.factory.id := by
  unfold request_id at h
  cases hf : fireEvent p "request_id" with
  | error e => rw [hf] at h; simp [Bind.bind, Except.bind] at h
  | ok q =>
    rw [hf] at h
    simp only [Bind.bind, Except.bind, Except.ok.injEq] at h
    rw [← h, fireEvent_ok_id p "request_id" q hf]

theorem request_job_ok_id (p : ProtocolState) (delta : Nat)
    (r : ProtocolState × List Output) (h : request_job p delta = .ok r) :
    r.1.factory.id = p.factory.id := by
  unfold request_job at h
  cases hf : fireEvent p "request_job" with
  | error e => rw [hf] at h; simp [Bind.bind, Except.bind] at h
  | ok q =>
    rw [hf] at h
    simp only [Bind.bind, Except.bind] at h
    rw [zmqRequestP_ok_id q "job" "" delta r h, fireEvent_ok_id p "request_job" q hf]

theorem request_update_ok_id (p : ProtocolState) (delta : Nat)
    (r : ProtocolState × List Output) (h : request_update p delta = .ok r) :
    r.1.factory.id = p.factory.id := by
  unfold request_update at h
  dsimp only at h
  cases hz : zmqRequestP { p with last_update := none } "update"
      (p.last_update.getD "") delta with
  | error e => rw [hz] at h; simp [Bind.bind, Except.bind] at h
  | ok s =>
    obtain ⟨s1, s2⟩ := s
    rw [hz] at h
    simp only [Bind.bind, Except.bind, Except.ok.injEq] at h
    have := zmqRequestP_ok_id { p with last_update := none } "update"
      (p.last_update.getD "") delta (s1, s2) hz
    rw [← h]
    exact this

theorem disconnectOp_ok_id (p : ProtocolState) (msg : String)
    (r : ProtocolState × List Output) (h : disconnectOp p msg = .ok r) :
    r.1.factory.id = p.factory.id := by
  unfold disconnectOp at h
  cases hf : fireEvent p "disconnect" with
  | error e => rw [hf] at h; simp [Bind.bind, Except.bind] at h
  | ok q =>
    rw [hf] at h
    simp only [Bind.bind, Except.bind, Except.ok.injEq] at h
    rw [← h, fireEvent_ok_id p "disconnect" q hf]

theorem clearDisconnectTime_id (p : ProtocolState) :
    (clearDisconnectTime p).factory.id = p.factory.id := rfl

theorem connectionMade_ok_id (p : ProtocolState)
    (r : ProtocolState × List Output) (h : connectionMade p = .ok r) :
    r.1.factory.id = p.factory.id := by
  unfold connectionMade at h
  dsimp only at h
  cases hid : (clearDisconnectTime p).factory.id with
  | none =>
    rw [hid] at h
    dsimp only at h
    cases hr : request_id (clearDisconnectTime p) with
    | error e => rw [hr] at h; simp [Bind.bind, Except.bind] at h
    | ok s =>
      obtain ⟨s1, s2⟩ := s
      rw [hr] at h
      simp only [Bind.bind, Except.bind, Except.ok.injEq] at h
      have h2 := request_id_ok_id _ (s1, s2) hr
      rw [clearDisconnectTime_id] at h2
      rw [← h]
      exact h2
  | some v =>
    rw [hid] at h
    dsimp only at h
    cases hf : fireEvent (clearDisconnectTime p) "send_id" with
    | error e => rw [hf] at h; simp [Bind.bind, Except.bind] at h
    | ok q =>
      rw [hf] at h
      simp only [Bind.bind, Except.bind, Except.ok.injEq] at h
      have h2 := fireEvent_ok_id _ "send_id" q hf
      rw [clearDisconnectTime_id] at h2
      rw [← h]
      exact h2

theorem clientConnectionLost_ok_id (f : FactoryState) (now : Nat)
    (r : FactoryState × List Output) (h : clientConnectionLost f now = .ok r) :
    r.1.id = f.id := by
  unfold clientConnectionLost at h
  split at h
  · cases hf : f.fsmState with
    | none =>
      rw [hf] at h
      simp only [Bind.bind, Except.bind] at h
      split at h <;> split at h <;> · injection h with h; subst h; rfl
    | some cur =>
      rw [hf] at h
      simp only [Bind.bind, Except.bind] at h
      split at h
      · split at h <;> split at h <;> · injection h with h; subst h; rfl
      · cases h
  · split at h <;> · injection h with h; subst h; rfl

theorem fireEvent_ok_fields (p : ProtocolState) (e : String) (q : ProtocolState)
    (h : fireEvent p e = .ok q) :
    q.factory.id = p.factory.id ∧
    q.factory.zmq_connection = p.factory.zmq_connection ∧
    q.last_update = p.last_update ∧ q.async = p.async ∧
    q.death_probability = p.death_probability ∧
    q.current_deferred = p.current_deferred := by
  unfold fireEvent at h
  split at h
  · cases h
  · split at h
    · injection h with h
      subst h
      exact ⟨rfl, rfl, rfl, rfl, rfl, rfl⟩
    · cases h

theorem zmqRequestP_ok_fields (p : ProtocolState) (c m : String) (delta : Nat)
    (r : ProtocolState × List Output) (h : zmqRequestP p c m delta = .ok r) :
    r.1.factory.id = p.factory.id ∧ r.1.last_update = p.last_update ∧
    r.1.async = p.async ∧ r.1.death_probability = p.death_probability ∧
    r.1.current_deferred = p.current_deferred ∧
    r.1.factory.fsmState = p.factory.fsmState := by
  unfold zmqRequestP at h
  split at h
  · cases h
  · injection h with h
    subst h
    exact ⟨rfl, rfl, rfl, rfl, rfl, rfl⟩

theorem request_update_ok_fields (p : ProtocolState) (delta : Nat)
    (r : ProtocolState × List Output) (h : request_update p delta = .ok r) :
    r.1.factory.id = p.factory.id ∧ r.1.last_update = none ∧
    r.1.async = p.async ∧ r.1.death_probability = p.death_probability ∧
    r.1.current_deferred = p.current_deferred ∧
    r.1.factory.fsmState = p.factory.fsmState := by
  unfold request_update at h
  dsimp only at h
  cases hz : zmqRequestP { p with last_update := none } "update"
      (p.last_update.getD "") delta with
  | error e => rw [hz] at h; simp [Bind.bind, Except.bind] at h
  | ok s =>
    obtain ⟨s1, s2⟩ := s
    rw [hz] at h
    simp only [Bind.bind, Except.bind, Except.ok.injEq] at h
    obtain ⟨h1, h2, h3, h4, h5, h6⟩ :=
      zmqRequestP_ok_fields _ "update" (p.last_update.getD "") delta (s1, s2) hz
    rw [← h]
    exact ⟨h1, h2, h3, h4, h5, h6⟩

theorem job_received_ok_id (p : ProtocolState) (job : String) (dr : ℚ)
    (delta : Nat) (r : ProtocolState × List Output)
    (h : job_received p job dr delta = .ok r) :
    r.1.factory.id = p.factory.id := by
  unfold job_received at h
  dsimp only at h
  split at h
  case isTrue hj0 =>
    cases hf : fireEvent p "refuse_job" with
    | error e => rw [hf] at h; simp [Bind.bind, Except.bind] at h
    | ok q =>
      rw [hf] at h
      obtain ⟨hq1, hq2, hq3, hq4, hq5, hq6⟩ := fireEvent_ok_fields p "refuse_job" q hf
      simp only [Bind.bind, Except.bind] at h
      split at h
      · cases hru : request_update q delta with
        | error e => rw [hru] at h; simp [Bind.bind, Except.bind] at h
        | ok s =>
          obtain ⟨s1, s2⟩ := s
          rw [hru] at h
          obtain ⟨hs1, hs2, hs3, hs4, hs5, hs6⟩ :=
            request_update_ok_fields q delta (s1, s2) hru
          try simp only [Bind.bind, Except.bind] at h
          split at h
          · injection h with h
            subst h
            show s1.factory.id = p.factory.id
            rw [hs1, hq1]
          · split at h
            · injection h with h
              subst h
              show s1.factory.id = p.factory.id
              rw [hs1, hq1]
            · split at h
              · injection h with h
                subst h
                show s1.factory.id = p.factory.id
                rw [hs1, hq1]
              · injection h with h
                subst h
                show s1.factory.id = p.factory.id
                rw [hs1, hq1]
      · try simp only [Bind.bind, Except.bind] at h
        split at h
        · injection h with h
          subst h
          show q.factory.id = p.factory.id
          rw [hq1]
        · split at h
          · injection h with h
            subst h
            show q.factory.id = p.factory.id
            rw [hq1]
          · split at h
            · injection h with h
              subst h
              show q.factory.id = p.factory.id
              rw [hq1]
            · injection h with h
              subst h
              show q.factory.id = p.factory.id
              rw [hq1]
  case isFalse hj0 =>
    split at h
    case isTrue hj1 =>
      cases hf : fireEvent p "postpone_job" with
      | error e => rw [hf] at h; simp [Bind.bind, Except.bind] at h
      | ok q =>
        rw [hf] at h
        obtain ⟨hq1, hq2, hq3, hq4, hq5, hq6⟩ :=
          fireEvent_ok_fields p "postpone_job" q hf
        simp only [Bind.bind, Except.bind] at h
        split at h
        · cases hru : request_update q delta with
          | error e => rw [hru] at h; simp [Bind.bind, Except.bind] at h
          | ok s =>
            obtain ⟨s1, s2⟩ := s
            rw [hru] at h
            obtain ⟨hs1, hs2, hs3, hs4, hs5, hs6⟩ :=
              request_update_ok_fields q delta (s1, s2) hru
            try simp only [Bind.bind, Except.bind] at h
            injection h with h
            subst h
            show s1.factory.id = p.factory.id
            rw [hs1, hq1]
        · try simp only [Bind.bind, Except.bind] at h
          injection h with h
          subst h
          show q.factory.id = p.factory.id
          rw [hq1]
    case isFalse hj1 =>
      cases hf : fireEvent p "obtain_job" with
      | error e => rw [hf] at h; simp [Bind.bind, Except.bind] at h
      | ok q =>
        rw [hf] at h
        obtain ⟨hq1, hq2, hq3, hq4, hq5, hq6⟩ :=
          fireEvent_ok_fields p "obtain_job" q hf
        simp only [Bind.bind, Except.bind] at h
        split at h
        · cases hru : request_update q delta with
          | error e => rw [hru] at h; simp [Bind.bind, Except.bind] at h
          | ok s =>
            obtain ⟨s1, s2⟩ := s
            rw [hru] at h
            obtain ⟨hs1, hs2, hs3, hs4, hs5, hs6⟩ :=
              request_update_ok_fields q delta (s1, s2) hru
            try simp only [Bind.bind, Except.bind] at h
            split at h
            · injection h with h
              subst h
              show s1.factory.id = p.factory.id
              rw [hs1, hq1]
            · split at h
              · injection h with h
                subst h
                show s1.factory.id = p.factory.id
                rw [hs1, hq1]
              · injection h with h
                subst h
                show s1.factory.id = p.factory.id
                rw [hs1, hq1]
        · try simp only [Bind.bind, Except.bind] at h
          split at h
          · injection h with h
            subst h
            show q.factory.id = p.factory.id
            rw [hq1]
          · split at h
            · injection h with h
              subst h
              show q.factory.id = p.factory.id
              rw [hq1]
            · injection h with h
              subst h
              show q.factory.id = p.factory.id
              rw [hq1]


theorem job_finished_ok_id (p : ProtocolState) (u : String) (delta : Nat)
    (r : ProtocolState × List Output) (h : job_finished p u delta = .ok r) :
    r.1.factory.id = p.factory.id := by
  unfold job_finished at h
  split at h
  · injection h with h
    subst h
    rfl
  · dsimp only at h
    cases hf : fireEvent { p with last_update := some u } "complete_job" with
    | error e => rw [hf] at h; simp [Bind.bind, Except.bind] at h
    | ok q =>
      rw [hf] at h
      simp only [Bind.bind, Except.bind] at h
      have hq : q.factory.id = p.factory.id :=
        fireEvent_ok_id { p with last_update := some u } "complete_job" q hf
      split at h
      · rw [request_job_ok_id q delta r h, hq]
      · rw [request_update_ok_id q delta r h, hq]

theorem update_result_received_ok_id (p : ProtocolState) (res : String)
    (delta : Nat) (r : ProtocolState × List Output)
    (h : update_result_received p res delta = .ok r) :
    r.1.factory.id = p.factory.id := by
  unfold update_result_received at h
  by_cases h0 : res = "0"
  · rw [if_pos h0] at h
    simp only [Bind.bind, Except.bind] at h
    split at h
    · injection h with h
      subst h
      rfl
    · split at h
      · cases hrj : request_job p delta with
        | error e => rw [hrj] at h; simp [Bind.bind, Except.bind] at h
        | ok s =>
          obtain ⟨s1, s2⟩ := s
          rw [hrj] at h
          try simp only [Bind.bind, Except.bind] at h
          injection h with h
          subst h
          show s1.factory.id = p.factory.id
          exact request_job_ok_id p delta (s1, s2) hrj
      · injection h with h
        subst h
        rfl
  · by_cases h1 : res = "1"
    · rw [if_neg h0, if_pos h1] at h
      simp only [Bind.bind, Except.bind] at h
      split at h
      · injection h with h
        subst h
        rfl
      · split at h
        · cases hrj : request_job p delta with
          | error e => rw [hrj] at h; simp [Bind.bind, Except.bind] at h
          | ok s =>
            obtain ⟨s1, s2⟩ := s
            rw [hrj] at h
            try simp only [Bind.bind, Except.bind] at h
            injection h with h
            subst h
            show s1.factory.id = p.factory.id
            exact request_job_ok_id p delta (s1, s2) hrj
        · injection h with h
          subst h
          rfl
    · rw [if_neg h0, if_neg h1] at h
      simp [Bind.bind, Except.bind] at h

theorem lineReceived_id_cases (p : ProtocolState) (line : LineMsg) (delta : Nat)
    (r : ProtocolState × List Output) (h : lineReceived p line delta = .ok r) :
    r.1.factory.id = p.factory.id ∨
    (∃ err rc c ep dt, line = LineMsg.dict err rc (some c) ep dt ∧
      r.1.factory.id = some c) := by
  cases line with
  | nonDict =>
    left
    unfold lineReceived at h
    injection h with h
    subst h
    rfl
  | dict err reconn cid endpoint data =>
    unfold lineReceived at h
    dsimp only at h
    split at h
    · left
      cases hd : disconnectOp p "Server returned error" with
      | error e => rw [hd] at h; simp [Bind.bind, Except.bind] at h
      | ok s =>
        obtain ⟨s1, s2⟩ := s
        rw [hd] at h
        try simp only [Bind.bind, Except.bind] at h
        injection h with h
        subst h
        show s1.factory.id = p.factory.id
        exact disconnectOp_ok_id p _ (s1, s2) hd
    · split at h
      · split at h
        · -- reconnection acknowledgment
          left
          cases hid : p.factory.id with
          | none =>
            rw [hid] at h
            dsimp only at h
            cases hr : request_id p with
            | error e => rw [hr] at h; simp [Bind.bind, Except.bind] at h
            | ok s =>
              obtain ⟨s1, s2⟩ := s
              rw [hr] at h
              try simp only [Bind.bind, Except.bind] at h
              injection h with h
              subst h
              show s1.factory.id = none
              exact (request_id_ok_id p (s1, s2) hr).trans hid
          | some v =>
            rw [hid] at h
            dsimp only at h
            cases hr : request_job p delta with
            | error e => rw [hr] at h; simp [Bind.bind, Except.bind] at h
            | ok s =>
              obtain ⟨s1, s2⟩ := s
              rw [hr] at h
              try simp only [Bind.bind, Except.bind] at h
              injection h with h
              subst h
              show s1.factory.id = some v
              exact (request_job_ok_id p delta (s1, s2) hr).trans hid
        · -- fresh identity handling
          cases cid with
          | none =>
            left
            dsimp only at h
            cases hr : request_id p with
            | error e => rw [hr] at h; simp [Bind.bind, Except.bind] at h
            | ok s =>
              obtain ⟨s1, s2⟩ := s
              rw [hr] at h
              try simp only [Bind.bind, Except.bind] at h
              injection h with h
              subst h
              show s1.factory.id = p.factory.id
              exact request_id_ok_id p (s1, s2) hr
          | some c =>
            right
            refine ⟨err, reconn, c, endpoint, data, rfl, ?_⟩
            dsimp only at h
            cases endpoint with
            | none =>
              dsimp only at h
              cases hr : request_id
                  { p with factory := { p.factory with id := some c } } with
              | error e => rw [hr] at h; simp [Bind.bind, Except.bind] at h
              | ok s =>
                obtain ⟨s1, s2⟩ := s
                rw [hr] at h
                try simp only [Bind.bind, Except.bind] at h
                injection h with h
                subst h
                show s1.factory.id = some c
                have := request_id_ok_id _ (s1, s2) hr
                rw [this]
            | some ep =>
              dsimp only at h
              cases data with
              | none =>
                dsimp only at h
                cases hr : request_job
                    { p with factory := { p.factory with
                        id := some c
                        zmq_connection := some (ZmqDealer.init c ep) } } delta with
                | error e => rw [hr] at h; simp [Bind.bind, Except.bind] at h
                | ok s =>
                  obtain ⟨s1, s2⟩ := s
                  rw [hr] at h
                  try simp only [Bind.bind, Except.bind] at h
                  injection h with h
                  subst h
                  show s1.factory.id = some c
                  have := request_job_ok_id _ delta (s1, s2) hr
                  rw [this]
              | some dd =>
                dsimp only at h
                cases hr : request_job
                    { p with
                        factory := { p.factory with
                          id := some c
                          zmq_connection := some (ZmqDealer.init c ep) }
                        current_deferred := true } delta with
                | error e => rw [hr] at h; simp [Bind.bind, Except.bind] at h
                | ok s =>
                  obtain ⟨s1, s2⟩ := s
                  rw [hr] at h
                  try simp only [Bind.bind, Except.bind] at h
                  injection h with h
                  subst h
                  show s1.factory.id = some c
                  have := request_job_ok_id _ delta (s1, s2) hr
                  rw [this]
      · left
        cases hd : disconnectOp p "Invalid state" with
        | error e => rw [hd] at h; simp [Bind.bind, Except.bind] at h
        | ok s =>
          obtain ⟨s1, s2⟩ := s
          rw [hd] at h
          try simp only [Bind.bind, Except.bind] at h
          injection h with h
          subst h
          show s1.factory.id = p.factory.id
          exact disconnectOp_ok_id p _ (s1, s2) hd

/-- A synchronous session in `WAIT` with an already-assigned identity. -/
def exProtoWait : ProtocolState :=
  { factory := { id := some "A", fsmState := some "WAIT",
                 zmq_connection := some exDealerTcp, disconnect_time := none }
    last_update := none
    async := false
    death_probability := 0
    current_deferred := false }

/-- C4 counterexample: a session whose Identity is already `"A"` receives a
`WAIT`-state handshake line carrying id `"B"` and a data endpoint;
`lineReceived` stores `"B"`, replacing the previously assigned Identity. -/
theorem C4_identity_counterexample :
    exProtoWait.factory.id = some "A" ∧
    Except.map (fun r => r.1.factory.id)
      (lineReceived exProtoWait
        (LineMsg.dict none none (some "B") (some "tcp://h:2") none) 0)
    = .ok (some "B") := ⟨rfl, rfl⟩

/-- C4 (amended): an assigned Identity is preserved by every session
operation except the Control Channel's `lineReceived`, which stores the id
field of any `WAIT`-state handshake message unconditionally — its result
either preserves the identity or equals the id carried by the message (which
may differ from the previously assigned one). -/
theorem C4_identity_amended :
    (∀ (p : ProtocolState) (job : String) (dr : ℚ) (delta : Nat)
        (r : ProtocolState × List Output),
      job_received p job dr delta = .ok r → r.1.factory.id = p.factory.id) ∧
    (∀ (p : ProtocolState) (u : String) (delta : Nat)
        (r : ProtocolState × List Output),
      job_finished p u delta = .ok r → r.1.factory.id = p.factory.id) ∧
    (∀ (p : ProtocolState) (res : String) (delta : Nat)
        (r : ProtocolState × List Output),
      update_result_received p res delta = .ok r →
        r.1.factory.id = p.factory.id) ∧
    (∀ (p : ProtocolState) (delta : Nat) (r : ProtocolState × List Output),
      request_update p delta = .ok r → r.1.factory.id = p.factory.id) ∧
    (∀ (p : ProtocolState) (delta : Nat) (r : ProtocolState × List Output),
      request_job p delta = .ok r → r.1.factory.id = p.factory.id) ∧
    (∀ (p : ProtocolState) (r : ProtocolState × List Output),
      connectionMade p = .ok r → r.1.factory.id = p.factory.id) ∧
    (∀ p : ProtocolState, (connectionLost p).1.factory.id = p.factory.id) ∧
    (∀ (f : FactoryState) (now : Nat) (r : FactoryState × List Output),
      clientConnectionLost f now = .ok r → r.1.id = f.id) ∧
    (∀ (p : ProtocolState) (line : LineMsg) (delta : Nat)
        (r : ProtocolState × List Output),
      lineReceived p line delta = .ok r →
      r.1.factory.id = p.factory.id ∨
      (∃ err rc c ep dt, line = LineMsg.dict err rc (some c) ep dt ∧
        r.1.factory.id = some c)) :=
  ⟨job_received_ok_id, job_finished_ok_id, update_result_received_ok_id,
   request_update_ok_id, request_job_ok_id, connectionMade_ok_id,
   fun p => by unfold connectionLost; split <;> rfl,
   clientConnectionLost_ok_id, lineReceived_id_cases⟩

/-- Witness for the amended C4: a concrete `clientConnectionLost` call keeps
the assigned identity. -/
theorem C4_identity_amended_witness :
    ({ id := some "A", fsmState := some "INIT",
       zmq_connection := some exDealerTcp,
       disconnect_time := some 5 } : FactoryState).id = exProtoSync.factory.id :=
  C4_identity_amended.2.2.2.2.2.2.2.1
    exProtoSync.factory 5
    ({ id := some "A", fsmState := some "INIT",
       zmq_connection := some exDealerTcp, disconnect_time := some 5 },
     [Output.logWarning "Disconnected, trying to reconnect...",
      Output.scheduleReconnect])
    (by rfl)

theorem fysomFire_reconnect (s : String) :
    fysomFire fsmEvents s "reconnect" = some "INIT" := rfl

/-- Association-list lookup into `_request_timings`. -/
def lookupTiming (t : List (String × Nat × Nat)) (c : String) :
    Option (Nat × Nat) :=
  match t with
  | [] => none
  | (c', v) :: rest => if c' = c then some v else lookupTiming rest c

theorem bumpTiming_lookup_ne (t : List (String × Nat × Nat)) (c : String)
    (delta : Nat) (c' : String) (h : c ≠ c') :
    lookupTiming (bumpTiming t c delta) c' = lookupTiming t c' := by
  induction t with
  | nil => simp [bumpTiming, lookupTiming, h]
  | cons a rest ih =>
    obtain ⟨a1, a2⟩ := a
    unfold bumpTiming
    by_cases ha : a1 = c
    · subst ha
      simp [lookupTiming, h]
    · simp only [if_neg ha]
      unfold lookupTiming
      by_cases ha' : a1 = c'
      · simp [ha']
      · simp [ha', ih]

theorem seekIfUpdate_job (d : ZmqDealerState) : seekIfUpdate d "job" = d := by
  unfold seekIfUpdate
  simp

theorem request_job_stats (d : ZmqDealerState) (delta : Nat) :
    (ZmqDealer.request d "job" "" delta).1.receive_timing = d.receive_timing ∧
    lookupTiming (ZmqDealer.request d "job" "" delta).1.request_timings "update"
      = lookupTiming d.request_timings "update" := by
  unfold ZmqDealer.request
  rw [seekIfUpdate_job]
  cases hd : d.shmem with
  | some sh =>
    simp only [hd]
    split
    · exact ⟨rfl, rfl⟩
    · exact ⟨rfl,
        bumpTiming_lookup_ne d.request_timings "job" delta "update" (by decide)⟩
  | none =>
    simp only [hd]
    split <;>
      exact ⟨rfl,
        bumpTiming_lookup_ne d.request_timings "job" delta "update" (by decide)⟩

/-- A synchronous session in `BUSY` with a pending update and an outstanding
execution, about to lose its transport. -/
def exProtoPending : ProtocolState :=
  { factory := { id := some "A", fsmState := some "BUSY",
                 zmq_connection := some exDealerTcp, disconnect_time := none }
    last_update := some "U"
    async := false
    death_probability := 0
    current_deferred := true }

/-- C2 counterexample: a reconnection cycle from `BUSY` with pending update
`"U"` ends with no pending update — `VelesProtocol.__init__` of the fresh
protocol instance resets `_last_update` to `None`, so the pending Update is
NOT retained across a reconnect, contradicting the claim. -/
theorem C2_reconnect_counterexample :
    exProtoPending.last_update = some "U" ∧
    Except.map (fun r => r.1.last_update) (reconnectCycle exProtoPending 5 0)
      = .ok none := ⟨rfl, rfl⟩

/-- C2 (amended): losing the transport in a non-terminal state fires
`reconnect`, returning the (factory-held) state machine to `INIT` while
keeping Identity, the data-channel connection and its timing statistics;
after the re-handshake (`send_id`, `{reconnect: ok}`, `request_job`) the
Identity equals the one held before the disconnect and the data channel's
receive/update timing statistics are unchanged (only a `job` request was
added); the pending Update, however, is reset to `None`, because a fresh
protocol instance is constructed for the new connection. -/
theorem C2_reconnect_amended (p : ProtocolState) (now delta : Nat)
    (s i : String) (d : ZmqDealerState)
    (hs : p.factory.fsmState = some s) (hE : s ≠ "ERROR") (hD : s ≠ "END")
    (hi : p.factory.id = some i) (hz : p.factory.zmq_connection = some d)
    (ht : p.factory.disconnect_time = none) :
    (Except.map Prod.fst (reconnectCycle p now delta) = .ok
      { factory :=
          { id := some i
            fsmState := some "GETTING_JOB"
            zmq_connection := some (ZmqDealer.request d "job" "" delta).1
            disconnect_time := none }
        last_update := none
        async := p.async
        death_probability := p.death_probability
        current_deferred := false }) ∧
    (clientConnectionLost p.factory now = .ok
      ({ p.factory with fsmState := some "INIT", disconnect_time := some now },
       [Output.logWarning "Disconnected, trying to reconnect...",
        Output.scheduleReconnect])) ∧
    ((ZmqDealer.request d "job" "" delta).1.receive_timing =
      d.receive_timing) ∧
    (lookupTiming (ZmqDealer.request d "job" "" delta).1.request_timings
        "update"
      = lookupTiming d.request_timings "update") := by
  have hcond : p.factory.fsmState = none ∨
      (p.factory.fsmState ≠ some "ERROR" ∧ p.factory.fsmState ≠ some "END") :=
    Or.inr ⟨by simp [hs, hE], by simp [hs, hD]⟩
  have hccl : clientConnectionLost p.factory now = .ok
      ({ p.factory with fsmState := some "INIT", disconnect_time := some now },
       [Output.logWarning "Disconnected, trying to reconnect...",
        Output.scheduleReconnect]) := by
    unfold clientConnectionLost
    rw [if_pos hcond, hs]
    simp [fysomFire_reconnect, Bind.bind, Except.bind, ht,
      RECONNECTION_ATTEMPTS, RECONNECTION_INTERVAL]
  refine ⟨?_, hccl, (request_job_stats d delta).1, (request_job_stats d delta).2⟩
  unfold reconnectCycle
  cases hcd : p.current_deferred <;>
    simp [connectionLost, hcd, hccl, VelesProtocol.init, connectionMade,
      clearDisconnectTime, lineReceived, request_job, fireEvent, fysomFire,
      fsmEvents, List.find?, zmqRequestP, hi, hz, Bind.bind, Except.bind,
      Except.map]

/-- Witness for the amended C2 at the concrete pending-update session. -/
theorem C2_reconnect_amended_witness :
    Except.map Prod.fst (reconnectCycle exProtoPending 5 0) = .ok
      { factory :=
          { id := some "A"
            fsmState := some "GETTING_JOB"
            zmq_connection := some (ZmqDealer.request exDealerTcp "job" "" 0).1
            disconnect_time := none }
        last_update := none
        async := exProtoPending.async
        death_probability := exProtoPending.death_probability
        current_deferred := false } :=
  (C2_reconnect_amended exProtoPending 5 0 "BUSY" "A" exDealerTcp rfl
    (by decide) (by decide) rfl rfl rfl).1

end Veles

